import Mathlib

/-!
Verification of the Player Progression & Leaderboard Engine of the
neon-arcade repository (a TypeScript web app).  The demo-mode backend
(`src/hooks/useLineraClient.ts`), the achievements engine
(`src/hooks/useAchievements.ts`) and the remote client
(`src/lib/linera/client.ts`) are shallowly embedded below: the
browser's `localStorage` tables become explicit association lists kept
in a `DemoStore` record, JavaScript objects keyed by player address
become `Table` values, and each public operation becomes a pure
function from the old store to the new one.  JavaScript numbers only
ever hold non-negative integers in this code, so they are modelled as
`Nat`; the
32-bit string hash is modelled with `Int` and explicit reduction
modulo 2 ^ 32; `Math.round` on the non-negative ratio `100 * w / g` is
modelled as exact half-up rational rounding, `(200 * w + g) / (2 * g)`
in natural division.
-/

namespace NeonArcade

/-- Player addresses are opaque strings (the demo wallet address). -/
abbrev Addr := String

/-- A `localStorage`-backed JSON object keyed by player address, e.g.
`linera-snake-scores`.  JavaScript objects preserve insertion order for
string keys, so the table is an ordered association list. -/
abbrev Table (β : Type) : Type := List (Addr × β)

/-- Read a key from a JS object: `obj[addr]`, `none` when absent. -/
def lookupTable {β : Type} : Table β → Addr → Option β
  | [], _ => none
  | (k, v) :: rest, a => if k = a then some v else lookupTable rest a

/-- Write a key into a JS object: `obj[addr] = v`.  An existing key keeps
its position; a new key is appended (JS string-key insertion order). -/
def setTable {β : Type} : Table β → Addr → β → Table β
  | [], a, v => [(a, v)]
  | (k, w) :: rest, a, v =>
      if k = a then (a, v) :: rest else (k, w) :: setTable rest a v

/-- Win/loss counter bundle stored for tic-tac-toe and UNO
(`{ wins, losses }`). -/
structure WinLossStats where
  wins : Nat
  losses : Nat
deriving Repr, DecidableEq

/-- Snake-and-ladders counter bundle `{ wins, losses, bestPosition }`. -/
structure SLStats where
  wins : Nat
  losses : Nat
  bestPosition : Nat
deriving Repr, DecidableEq

/-- Stored profile record `{ username, avatarId }` (key `linera-profiles`). -/
structure StoredProfile where
  username : String
  avatarId : Nat
deriving Repr, DecidableEq

/-- The demo-mode persistent state: one field per `localStorage` key used
by the engine in `useLineraClient.ts`. -/
structure DemoStore where
  /-- `linera-snake-scores`: address to snake high score. -/
  snakeScores : Table Nat
  /-- `linera-tictactoe-stats`: address to `{wins, losses}`. -/
  tttStats : Table WinLossStats
  /-- `linera-snakeladders-stats`: address to `{wins, losses, bestPosition}`. -/
  slStats : Table SLStats
  /-- `linera-uno-stats`: address to `{wins, losses}`. -/
  unoStats : Table WinLossStats
  /-- `linera-profiles`: address to `{username, avatarId}`. -/
  profiles : Table StoredProfile
  /-- `linera-games-played`: address to a play counter. -/
  gamesPlayed : Table Nat
deriving Repr, DecidableEq

/-- The store before any submission: every `localStorage` key absent. -/
def emptyStore : DemoStore :=
  { snakeScores := [], tttStats := [], slStats := [], unoStats := []
    profiles := [], gamesPlayed := [] }

/-- Demo-mode `submitSnakeScore` (state change only; the call also
returns `true`, handled in the hook dispatch below).  Reads the current
high score (`storedScores[wallet.address] || 0`), overwrites it only
when the submitted score is strictly greater, and increments the
games-played counter. -/
def submitSnakeScore (st : DemoStore) (addr : Addr) (score : Nat) : DemoStore :=
  let currentHigh := (lookupTable st.snakeScores addr).getD 0
  let scores :=
    if score > currentHigh then setTable st.snakeScores addr score
    else st.snakeScores
  let played := (lookupTable st.gamesPlayed addr).getD 0 + 1
  { st with snakeScores := scores, gamesPlayed := setTable st.gamesPlayed addr played }

/-- The stored snake high score as read back by demo-mode
`getSnakeHighScore` (and by `getUserProfile`): `storedScores[addr] || 0`. -/
def storedSnakeHigh (st : DemoStore) (addr : Addr) : Nat :=
  (lookupTable st.snakeScores addr).getD 0

/-- Submit a whole sequence of snake scores for one player. -/
def submitSnakeScores (st : DemoStore) (addr : Addr) (scores : List Nat) : DemoStore :=
  scores.foldl (fun s sc => submitSnakeScore s addr sc) st

theorem lookupTable_setTable_self {β : Type} (t : Table β) (a : Addr) (v : β) :
    lookupTable (setTable t a v) a = some v := by
  induction t with
  | nil => simp [setTable, lookupTable]
  | cons kv rest ih =>
      obtain ⟨k, w⟩ := kv
      by_cases h : k = a
      · simp [setTable, lookupTable, h]
      · simp [setTable, lookupTable, h, ih]

theorem storedSnakeHigh_submit (st : DemoStore) (a : Addr) (sc : Nat) :
    storedSnakeHigh (submitSnakeScore st a sc) a = max (storedSnakeHigh st a) sc := by
  unfold storedSnakeHigh submitSnakeScore
  by_cases h : sc > (lookupTable st.snakeScores a).getD 0
  · simp only [h, if_pos, lookupTable_setTable_self, Option.getD_some]
    exact (Nat.max_eq_right (Nat.le_of_lt h)).symm
  · simp only [h, if_neg, ite_false]
    exact (Nat.max_eq_left (Nat.le_of_not_lt h)).symm

theorem storedSnakeHigh_submitAll (st : DemoStore) (a : Addr) (l : List Nat) :
    storedSnakeHigh (submitSnakeScores st a l) a
      = l.foldl max (storedSnakeHigh st a) := by
  induction l generalizing st with
  | nil => rfl
  | cons x xs ih =>
      simp only [submitSnakeScores, List.foldl_cons]
      rw [show (List.foldl (fun s sc => submitSnakeScore s a sc) (submitSnakeScore st a x) xs)
            = submitSnakeScores (submitSnakeScore st a x) a xs from rfl,
          ih, storedSnakeHigh_submit]

theorem le_foldl_max (l : List Nat) (init : Nat) : init ≤ l.foldl max init := by
  induction l generalizing init with
  | nil => exact Nat.le_refl _
  | cons x xs ih => exact Nat.le_trans (Nat.le_max_left init x) (ih (max init x))

theorem mem_le_foldl_max (l : List Nat) (init : Nat) :
    ∀ x ∈ l, x ≤ l.foldl max init := by
  induction l generalizing init with
  | nil => intro x hx; cases hx
  | cons y ys ih =>
      intro x hx
      rcases List.mem_cons.mp hx with h | h
      · subst h
        exact Nat.le_trans (Nat.le_max_right init x) (le_foldl_max ys (max init x))
      · exact ih (max init y) x h

theorem foldl_max_eq_init_or_mem (l : List Nat) (init : Nat) :
    l.foldl max init = init ∨ l.foldl max init ∈ l := by
  induction l generalizing init with
  | nil => exact Or.inl rfl
  | cons x xs ih =>
      rcases ih (max init x) with h | h
      · by_cases hx : init ≤ x
        · right
          simp only [List.foldl_cons, h, List.mem_cons]
          exact Or.inl (Nat.max_eq_right hx)
        · left
          simp only [List.foldl_cons, h]
          exact Nat.max_eq_left (Nat.le_of_not_le hx)
      · right
        simp only [List.foldl_cons]
        exact List.mem_cons_of_mem x h

/-- **C1.** Demo-mode `submitSnakeScore`: starting from no stored score,
after submitting `s1, …, sn` the stored high score is an element of the
submitted scores and an upper bound of all of them (that is, it equals
`max(s1..sn)`), and the stored high score is monotonically
non-decreasing along the sequence of submissions. -/
theorem submitSnakeScore_high_eq_max (st : DemoStore) (a : Addr) (scores : List Nat)
    (h0 : lookupTable st.snakeScores a = none) (hne : scores ≠ []) :
    (storedSnakeHigh (submitSnakeScores st a scores) a ∈ scores
      ∧ ∀ x ∈ scores, x ≤ storedSnakeHigh (submitSnakeScores st a scores) a)
    ∧ ∀ l1 l2, scores = l1 ++ l2 →
        storedSnakeHigh (submitSnakeScores st a l1) a
          ≤ storedSnakeHigh (submitSnakeScores st a scores) a := by
  have hz : storedSnakeHigh st a = 0 := by simp [storedSnakeHigh, h0]
  have hall : storedSnakeHigh (submitSnakeScores st a scores) a = scores.foldl max 0 := by
    rw [storedSnakeHigh_submitAll, hz]
  refine ⟨⟨?_, ?_⟩, ?_⟩
  · rw [hall]
    rcases foldl_max_eq_init_or_mem scores 0 with h | h
    · -- the fold equals 0: the head is bounded by 0, hence is 0 and is a member
      cases scores with
      | nil => exact absurd rfl hne
      | cons y ys =>
          have hy : y ≤ 0 := by
            have := mem_le_foldl_max (y :: ys) 0 y (List.mem_cons_self y ys)
            omega
          have : y = 0 := Nat.le_antisymm hy (Nat.zero_le y)
          rw [h, ← this]
          exact List.mem_cons_self y ys
    · exact h
  · intro x hx
    rw [hall]
    exact mem_le_foldl_max scores 0 x hx
  · intro l1 l2 hsplit
    subst hsplit
    rw [storedSnakeHigh_submitAll, storedSnakeHigh_submitAll, List.foldl_append]
    exact le_foldl_max l2 _

/-- Witness for C1 at the spec's own example: submissions 10, 7, 25 from
an empty store; the final stored high score is 25, bounds every
submission, and grows monotonically along every split of the sequence. -/
theorem submitSnakeScore_high_eq_max_witness :
    lookupTable emptyStore.snakeScores "p" = none
    ∧ ([10, 7, 25] : List Nat) ≠ []
    ∧ ((storedSnakeHigh (submitSnakeScores emptyStore "p" [10, 7, 25]) "p" ∈ [10, 7, 25]
        ∧ ∀ x ∈ [10, 7, 25],
            x ≤ storedSnakeHigh (submitSnakeScores emptyStore "p" [10, 7, 25]) "p")
      ∧ ∀ l1 l2, ([10, 7, 25] : List Nat) = l1 ++ l2 →
          storedSnakeHigh (submitSnakeScores emptyStore "p" l1) "p"
            ≤ storedSnakeHigh (submitSnakeScores emptyStore "p" [10, 7, 25]) "p") :=
  ⟨rfl, by decide,
    submitSnakeScore_high_eq_max emptyStore "p" [10, 7, 25] rfl (by decide)⟩

/-- Demo-mode `submitTicTacToeResult` (state change): defaults missing
stats to `{wins: 0, losses: 0}` and bumps the matching counter. -/
def submitTicTacToeResult (st : DemoStore) (addr : Addr) (won : Bool) : DemoStore :=
  let stats := (lookupTable st.tttStats addr).getD ⟨0, 0⟩
  let stats := if won then { stats with wins := stats.wins + 1 }
               else { stats with losses := stats.losses + 1 }
  { st with tttStats := setTable st.tttStats addr stats }

/-- Demo-mode `submitSnakeLaddersResult` (state change): defaults missing
stats to `{wins: 0, losses: 0, bestPosition: 4}`, bumps the matching
counter, and lowers `bestPosition` only when the submitted finishing
position is strictly smaller. -/
def submitSnakeLaddersResult (st : DemoStore) (addr : Addr) (won : Bool) (position : Nat) :
    DemoStore :=
  let stats := (lookupTable st.slStats addr).getD ⟨0, 0, 4⟩
  let stats := if won then { stats with wins := stats.wins + 1 }
               else { stats with losses := stats.losses + 1 }
  let stats := if position < stats.bestPosition then { stats with bestPosition := position }
               else stats
  { st with slStats := setTable st.slStats addr stats }

/-- Demo-mode `submitUnoResult` (state change). -/
def submitUnoResult (st : DemoStore) (addr : Addr) (won : Bool) : DemoStore :=
  let stats := (lookupTable st.unoStats addr).getD ⟨0, 0⟩
  let stats := if won then { stats with wins := stats.wins + 1 }
               else { stats with losses := stats.losses + 1 }
  { st with unoStats := setTable st.unoStats addr stats }

/-- Demo-mode `updateProfile` (state change): whole-record write of
`{username, avatarId}` for the player. -/
def updateProfile (st : DemoStore) (addr : Addr) (username : String) (avatarId : Nat) :
    DemoStore :=
  { st with profiles := setTable st.profiles addr ⟨username, avatarId⟩ }

/-- The snake-and-ladders `bestPosition` a later submission would read for
the player: the stored value, defaulting to 4 when no stats exist. -/
def bestPositionSL (st : DemoStore) (addr : Addr) : Nat :=
  ((lookupTable st.slStats addr).getD ⟨0, 0, 4⟩).bestPosition

/-- Run a sequence of snake-and-ladders submissions `(won, position)`. -/
def submitSnakeLaddersAll (st : DemoStore) (addr : Addr) (subs : List (Bool × Nat)) :
    DemoStore :=
  subs.foldl (fun s p => submitSnakeLaddersResult s addr p.1 p.2) st

theorem bestPositionSL_submit (st : DemoStore) (a : Addr) (w : Bool) (p : Nat) :
    bestPositionSL (submitSnakeLaddersResult st a w p) a
      = if p < bestPositionSL st a then p else bestPositionSL st a := by
  unfold bestPositionSL submitSnakeLaddersResult
  cases w <;>
    by_cases h : p < ((lookupTable st.slStats a).getD ⟨0, 0, 4⟩).bestPosition <;>
      simp [h, lookupTable_setTable_self]

/-- **C10.** Snake-and-ladders `bestPosition`: it reads as 4 when no stats
are stored for the player, a single `submitSnakeLaddersResult` replaces it
by the submitted position exactly when that position is strictly smaller,
and it is monotonically non-increasing across any sequence of
submissions. -/
theorem submitSnakeLaddersResult_bestPosition (st : DemoStore) (a : Addr)
    (h0 : lookupTable st.slStats a = none) :
    bestPositionSL st a = 4
    ∧ (∀ st' : DemoStore, ∀ w : Bool, ∀ p : Nat,
        bestPositionSL (submitSnakeLaddersResult st' a w p) a
          = if p < bestPositionSL st' a then p else bestPositionSL st' a)
    ∧ (∀ subs : List (Bool × Nat), ∀ st' : DemoStore,
        bestPositionSL (submitSnakeLaddersAll st' a subs) a ≤ bestPositionSL st' a) := by
  refine ⟨by simp [bestPositionSL, h0], fun st' w p => bestPositionSL_submit st' a w p, ?_⟩
  intro subs
  induction subs with
  | nil => intro st'; exact Nat.le_refl _
  | cons x xs ih =>
      intro st'
      have hstep : bestPositionSL (submitSnakeLaddersResult st' a x.1 x.2) a
          ≤ bestPositionSL st' a := by
        rw [bestPositionSL_submit]
        by_cases h : x.2 < bestPositionSL st' a
        · simp [h]; omega
        · simp [h]
      exact Nat.le_trans (ih (submitSnakeLaddersResult st' a x.1 x.2)) hstep

/-- Witness for C10: from the empty store, the default is 4; submitting
position 2 then 3 keeps the minimum 2 (strictly-smaller replacement only,
and never increasing). -/
theorem submitSnakeLaddersResult_bestPosition_witness :
    lookupTable emptyStore.slStats "p" = none
    ∧ (bestPositionSL emptyStore "p" = 4
      ∧ (∀ st' : DemoStore, ∀ w : Bool, ∀ p : Nat,
          bestPositionSL (submitSnakeLaddersResult st' "p" w p) "p"
            = if p < bestPositionSL st' "p" then p else bestPositionSL st' "p")
      ∧ (∀ subs : List (Bool × Nat), ∀ st' : DemoStore,
          bestPositionSL (submitSnakeLaddersAll st' "p" subs) "p"
            ≤ bestPositionSL st' "p"))
    ∧ bestPositionSL (submitSnakeLaddersAll emptyStore "p" [(true, 2), (false, 3)]) "p" = 2 :=
  ⟨rfl, submitSnakeLaddersResult_bestPosition emptyStore "p" rfl, by decide⟩

/-!
Remote-backend path.  `LineraGameClient.mutate` either fails (`null`,
modelled `none`) or returns a parsed GraphQL response whose `data` field
may itself be `null`; `Boolean(result?.data)` is the submitted call's
boolean result.  When the hook runs with the remote backend selected
(`usingDemoMode = false` and the client connected) it returns the remote
call's result directly and never touches the demo-mode store.
-/

/-- A GraphQL mutation/query outcome as seen by the client wrapper:
`none` models a failed `mutate` (it returned `null`); `some none` models a
response without a `data` payload; `some (some ())` a successful one. -/
abbrev MutationOutcome : Type := Option (Option Unit)

/-- `LineraGameClient.submitSnakeScore`: `Boolean(result?.data)`. -/
def clientSubmitSnakeScore (response : MutationOutcome) : Bool :=
  match response with
  | some (some _) => true
  | _ => false

/-- The hook-level `submitSnakeScore` dispatch: guard on connection and
wallet, then either forward to the remote client (remote backend active)
or run the demo-mode path (which returns `true`).  The result pairs the
returned boolean with the demo store after the call. -/
def submitSnakeScoreHook (isConnected : Bool) (wallet : Option Addr)
    (usingDemoMode : Bool) (clientConnected : Bool) (response : MutationOutcome)
    (st : DemoStore) (score : Nat) : Bool × DemoStore :=
  match wallet with
  | none => (false, st)
  | some addr =>
      if isConnected = false then (false, st)
      else if usingDemoMode = false ∧ clientConnected = true then
        (clientSubmitSnakeScore response, st)
      else (true, submitSnakeScore st addr score)

/-- **C9.** With the remote backend selected (not demo mode, client
connected), the hook's `submitSnakeScore` returns exactly the remote
call's boolean and leaves the local demo store untouched; in particular a
failed remote mutation (`null` response, or a response with no `data`)
yields `false` with no local-store write. -/
theorem submitSnakeScoreHook_remote_no_local_write :
    (∀ (addr : Addr) (response : MutationOutcome) (st : DemoStore) (score : Nat),
      submitSnakeScoreHook true (some addr) false true response st score
        = (clientSubmitSnakeScore response, st))
    ∧ clientSubmitSnakeScore none = false
    ∧ clientSubmitSnakeScore (some none) = false := by
  refine ⟨fun addr response st score => ?_, rfl, rfl⟩
  simp [submitSnakeScoreHook]

/-!
Demo-mode `getUserProfile` (the current hook variant, the one wired to
`src/lib/linera`).  All six storage tables are read with zero defaults;
the progression formula is `totalXP = snakeHighScore + totalWins * 50`
with `totalWins = tttWins + slWins + unoWins`, `level = ⌊totalXP/500⌋ + 1`
and `xp = totalXP % 500`.
-/

/-- The profile record returned by `getUserProfile`. -/
structure UserProfile where
  username : String
  avatarId : Nat
  level : Nat
  xp : Nat
  snakeHighScore : Nat
  snakeGames : Nat
  snakeLaddersWins : Nat
  snakeLaddersLosses : Nat
  tictactoeWins : Nat
  tictactoeLosses : Nat
  unoWins : Nat
  unoLosses : Nat
deriving Repr, DecidableEq

/-- `profile.username || 'Anonymous Player'`: default on a missing record
or an empty (falsy) username. -/
def usernameOrDefault (profile : Option StoredProfile) : String :=
  match profile with
  | some p => if p.username = "" then "Anonymous Player" else p.username
  | none => "Anonymous Player"

/-- `profile.avatarId || 0` (a missing record or avatar 0 gives 0). -/
def avatarIdOrDefault (profile : Option StoredProfile) : Nat :=
  match profile with
  | some p => p.avatarId
  | none => 0

/-- Demo-mode `getUserProfile` body for a resolved target address.  The
source defaults missing snake-and-ladders stats to `{wins: 0, losses: 0}`
with no `bestPosition` field; the default's `bestPosition` is not read
here, so the value 4 below is arbitrary. -/
def getUserProfile (st : DemoStore) (targetAddress : Addr) : UserProfile :=
  let profile := lookupTable st.profiles targetAddress
  let snakeHighScore := (lookupTable st.snakeScores targetAddress).getD 0
  let tttStats := (lookupTable st.tttStats targetAddress).getD ⟨0, 0⟩
  let slStats := (lookupTable st.slStats targetAddress).getD ⟨0, 0, 4⟩
  let unoStats := (lookupTable st.unoStats targetAddress).getD ⟨0, 0⟩
  let snakeGames := (lookupTable st.gamesPlayed targetAddress).getD 0
  let totalWins := tttStats.wins + slStats.wins + unoStats.wins
  let totalXP := snakeHighScore + totalWins * 50
  { username := usernameOrDefault profile
    avatarId := avatarIdOrDefault profile
    level := totalXP / 500 + 1
    xp := totalXP % 500
    snakeHighScore := snakeHighScore
    snakeGames := snakeGames
    snakeLaddersWins := slStats.wins
    snakeLaddersLosses := slStats.losses
    tictactoeWins := tttStats.wins
    tictactoeLosses := tttStats.losses
    unoWins := unoStats.wins
    unoLosses := unoStats.losses }

/-- Store for the spec's progression example: snake high score 120 and
three wins across the win/loss games (2 tic-tac-toe, 1 snake-and-ladders). -/
def progressionExampleStore : DemoStore :=
  { emptyStore with
      snakeScores := [("eve", 120)]
      tttStats := [("eve", ⟨2, 0⟩)]
      slStats := [("eve", ⟨1, 0, 4⟩)] }

/-- **C2.** Demo-mode `getUserProfile` satisfies the progression formula
exactly, on every stored state: with `totalWins` the sum of the returned
tic-tac-toe, snake-and-ladders and UNO wins and
`totalXp = snakeHighScore + totalWins * 50`, the returned level is
`⌊totalXp / 500⌋ + 1` and the returned xp is `totalXp % 500`; on the
spec's example (high score 120, 3 wins) this gives level 1 and xp 270. -/
theorem getUserProfile_progression :
    (∀ (st : DemoStore) (a : Addr),
      (getUserProfile st a).level
          = ((getUserProfile st a).snakeHighScore
              + ((getUserProfile st a).tictactoeWins
                  + (getUserProfile st a).snakeLaddersWins
                  + (getUserProfile st a).unoWins) * 50) / 500 + 1
        ∧ (getUserProfile st a).xp
          = ((getUserProfile st a).snakeHighScore
              + ((getUserProfile st a).tictactoeWins
                  + (getUserProfile st a).snakeLaddersWins
                  + (getUserProfile st a).unoWins) * 50) % 500)
    ∧ (getUserProfile progressionExampleStore "eve").snakeHighScore = 120
    ∧ (getUserProfile progressionExampleStore "eve").tictactoeWins
        + (getUserProfile progressionExampleStore "eve").snakeLaddersWins
        + (getUserProfile progressionExampleStore "eve").unoWins = 3
    ∧ (getUserProfile progressionExampleStore "eve").level = 1
    ∧ (getUserProfile progressionExampleStore "eve").xp = 270 := by
  refine ⟨fun st a => ⟨rfl, rfl⟩, by decide, by decide, by decide, by decide⟩

/-!
Achievements engine (`src/hooks/useAchievements.ts`).  The hook keeps a
stats record and a catalogue of achievements; `trackGamePlayed` first
updates the stats from the reported result, then evaluates the condition
list against the new stats and unlocks every still-locked achievement
whose condition holds.
-/

/-- The `AchievementStats` record of `useAchievements`. -/
structure AchievementStats where
  totalGames : Nat
  totalWins : Nat
  currentWinStreak : Nat
  bestWinStreak : Nat
  snakeHighScore : Nat
  tttWins : Nat
  slWins : Nat
  unoWins : Nat
deriving Repr, DecidableEq

/-- The hook's initial stats (all counters zero). -/
def initialStats : AchievementStats := ⟨0, 0, 0, 0, 0, 0, 0, 0⟩

/-- The optional `extraData` argument of `trackGamePlayed`.  `score` is
`extraData?.score` (absent modelled as `none`; note a present score of 0
is falsy in JS and is treated like an absent one by the source). -/
structure ExtraData where
  score : Option Nat
  perfectTTT : Bool
  playedPlus4 : Bool
  wonWithReverse : Bool
  noSnakesHit : Bool
deriving Repr, DecidableEq

/-- No `extraData` passed. -/
def noExtra : ExtraData := ⟨none, false, false, false, false⟩

/-- First statements of `trackGamePlayed`'s stats update: bump
`totalGames`; on a win bump `totalWins` and the streak and fold the streak
into `bestWinStreak`, on a loss reset the streak. -/
def bumpCoreStats (stats : AchievementStats) (won : Bool) : AchievementStats :=
  let s := { stats with totalGames := stats.totalGames + 1 }
  if won then
    let cw := s.currentWinStreak + 1
    { s with totalWins := s.totalWins + 1
             currentWinStreak := cw
             bestWinStreak := if cw > s.bestWinStreak then cw else s.bestWinStreak }
  else { s with currentWinStreak := 0 }

/-- The snake branch of the stats update: the score is taken only when
truthy (present and non-zero) and only raises the high score. -/
def applySnakeHigh (s : AchievementStats) (game : String) (extra : ExtraData) :
    AchievementStats :=
  if game = "snake" then
    match extra.score with
    | some sc =>
        if sc ≠ 0 then
          if sc > s.snakeHighScore then { s with snakeHighScore := sc } else s
        else s
    | none => s
  else s

/-- `if (game === 'tictactoe' && won) newStats.tttWins++`. -/
def applyTttWin (s : AchievementStats) (game : String) (won : Bool) : AchievementStats :=
  if game = "tictactoe" ∧ won = true then { s with tttWins := s.tttWins + 1 } else s

/-- `if (game === 'snakeladders' && won) newStats.slWins++`. -/
def applySlWin (s : AchievementStats) (game : String) (won : Bool) : AchievementStats :=
  if game = "snakeladders" ∧ won = true then { s with slWins := s.slWins + 1 } else s

/-- `if (game === 'uno' && won) newStats.unoWins++`. -/
def applyUnoWin (s : AchievementStats) (game : String) (won : Bool) : AchievementStats :=
  if game = "uno" ∧ won = true then { s with unoWins := s.unoWins + 1 } else s

/-- The whole stats update performed at the top of `trackGamePlayed`: the
core counters and streaks, then the game-specific counters, applied in
source order. -/
def updateStats (stats : AchievementStats) (game : String) (won : Bool)
    (extra : ExtraData) : AchievementStats :=
  applyUnoWin (applySlWin (applyTttWin (applySnakeHigh (bumpCoreStats stats won) game extra)
    game won) game won) game won

/-- One reported game result, as passed to `trackGamePlayed`. -/
structure Play where
  game : String
  won : Bool
  extra : ExtraData
deriving Repr, DecidableEq

/-- Fold a sequence of reported results over the stats. -/
def runStatsFrom (st : AchievementStats) (plays : List Play) : AchievementStats :=
  plays.foldl (fun s p => updateStats s p.game p.won p.extra) st

/-- Stats after a sequence of results from the hook's initial state. -/
def runStats (plays : List Play) : AchievementStats :=
  runStatsFrom initialStats plays

/-- The sequence of `currentWinStreak` values observed after each call of
a sequence of `trackGamePlayed` calls starting from `st`. -/
def streakValues (st : AchievementStats) : List Play → List Nat
  | [] => []
  | p :: rest =>
      let st' := updateStats st p.game p.won p.extra
      st'.currentWinStreak :: streakValues st' rest

theorem applySnakeHigh_streaks (s : AchievementStats) (g : String) (e : ExtraData) :
    (applySnakeHigh s g e).currentWinStreak = s.currentWinStreak
    ∧ (applySnakeHigh s g e).bestWinStreak = s.bestWinStreak := by
  unfold applySnakeHigh
  repeat' split
  all_goals exact ⟨rfl, rfl⟩

theorem applyTttWin_streaks (s : AchievementStats) (g : String) (w : Bool) :
    (applyTttWin s g w).currentWinStreak = s.currentWinStreak
    ∧ (applyTttWin s g w).bestWinStreak = s.bestWinStreak := by
  unfold applyTttWin
  split
  all_goals exact ⟨rfl, rfl⟩

theorem applySlWin_streaks (s : AchievementStats) (g : String) (w : Bool) :
    (applySlWin s g w).currentWinStreak = s.currentWinStreak
    ∧ (applySlWin s g w).bestWinStreak = s.bestWinStreak := by
  unfold applySlWin
  split
  all_goals exact ⟨rfl, rfl⟩

theorem applyUnoWin_streaks (s : AchievementStats) (g : String) (w : Bool) :
    (applyUnoWin s g w).currentWinStreak = s.currentWinStreak
    ∧ (applyUnoWin s g w).bestWinStreak = s.bestWinStreak := by
  unfold applyUnoWin
  split
  all_goals exact ⟨rfl, rfl⟩

theorem updateStats_currentWinStreak (st : AchievementStats) (g : String) (w : Bool)
    (e : ExtraData) :
    (updateStats st g w e).currentWinStreak = if w then st.currentWinStreak + 1 else 0 := by
  unfold updateStats
  rw [(applyUnoWin_streaks _ g w).1, (applySlWin_streaks _ g w).1,
      (applyTttWin_streaks _ g w).1, (applySnakeHigh_streaks _ g e).1]
  cases w <;> simp [bumpCoreStats]

theorem updateStats_bestWinStreak (st : AchievementStats) (g : String) (w : Bool)
    (e : ExtraData) :
    (updateStats st g w e).bestWinStreak
      = max st.bestWinStreak (updateStats st g w e).currentWinStreak := by
  unfold updateStats
  rw [(applyUnoWin_streaks _ g w).1, (applySlWin_streaks _ g w).1,
      (applyTttWin_streaks _ g w).1, (applySnakeHigh_streaks _ g e).1,
      (applyUnoWin_streaks _ g w).2, (applySlWin_streaks _ g w).2,
      (applyTttWin_streaks _ g w).2, (applySnakeHigh_streaks _ g e).2]
  cases w
  · simp [bumpCoreStats]
  · simp [bumpCoreStats]
    try split <;> omega

/-- A short win, win, loss, win demo sequence (UNO games; the streak logic
is independent of the game type). -/
def demoWWLW : List Play :=
  [⟨"uno", true, noExtra⟩, ⟨"uno", true, noExtra⟩,
   ⟨"uno", false, noExtra⟩, ⟨"uno", true, noExtra⟩]

/-- **C3.** `trackGamePlayed` stats: `currentWinStreak` increments by 1 on
a win and resets to 0 on a loss; after any sequence of calls from the
initial state, `bestWinStreak` equals the maximum value `currentWinStreak`
has ever reached; on win, win, loss, win the streak values are 1, 2, 0, 1
and the best streak is 2. -/
theorem trackGamePlayed_winStreaks :
    (∀ (st : AchievementStats) (g : String) (w : Bool) (e : ExtraData),
      (updateStats st g w e).currentWinStreak = if w then st.currentWinStreak + 1 else 0)
    ∧ (∀ plays : List Play,
        (runStats plays).bestWinStreak = (streakValues initialStats plays).foldl max 0)
    ∧ streakValues initialStats demoWWLW = [1, 2, 0, 1]
    ∧ (runStats demoWWLW).bestWinStreak = 2 := by
  have key : ∀ (plays : List Play) (st : AchievementStats),
      (runStatsFrom st plays).bestWinStreak
        = (streakValues st plays).foldl max st.bestWinStreak := by
    intro plays
    induction plays with
    | nil => intro st; rfl
    | cons p rest ih =>
        intro st
        simp only [runStatsFrom, List.foldl_cons, streakValues]
        rw [show (List.foldl (fun s q => updateStats s q.game q.won q.extra)
              (updateStats st p.game p.won p.extra) rest)
            = runStatsFrom (updateStats st p.game p.won p.extra) rest from rfl, ih]
        rw [updateStats_bestWinStreak st p.game p.won p.extra]
  refine ⟨updateStats_currentWinStreak, fun plays => ?_, by decide, by decide⟩
  have := key plays initialStats
  simpa [runStats, initialStats] using this

/-- An achievement record as kept in the hook's state: the static
catalogue data plus the per-player unlock state. -/
structure Achievement where
  id : String
  title : String
  description : String
  icon : String
  unlocked : Bool
  unlockedAt : Option Nat
  category : String
  rarity : String
  xpReward : Nat
deriving Repr, DecidableEq

/-- `{ ...a, unlocked: true, unlockedAt: Date.now() }`. -/
def unlockAch (a : Achievement) (now : Nat) : Achievement :=
  { a with unlocked := true, unlockedAt := some now }

/-- `checkAndUnlock`: find the achievement; return `false` if missing or
already unlocked, else unlock it (stamping `unlockedAt`) and return
`true` with the updated list. -/
def checkAndUnlock (achievements : List Achievement) (achievementId : String) (now : Nat) :
    Bool × List Achievement :=
  match achievements.find? (fun a => a.id = achievementId) with
  | none => (false, achievements)
  | some a =>
      if a.unlocked then (false, achievements)
      else
        (true, achievements.map (fun b =>
          if b.id = achievementId then unlockAch b now else b))

/-- The `checkAchievements` array built by `trackGamePlayed` against the
new stats, with the one-shot `extraData`-driven entries appended. -/
def checkList (s : AchievementStats) (extra : ExtraData) : List (String × Bool) :=
  [("first_game", decide (s.totalGames ≥ 1)), ("play_10", decide (s.totalGames ≥ 10)),
   ("play_50", decide (s.totalGames ≥ 50)), ("play_100", decide (s.totalGames ≥ 100)),
   ("first_win", decide (s.totalWins ≥ 1)), ("win_streak_3", decide (s.currentWinStreak ≥ 3)),
   ("win_streak_5", decide (s.currentWinStreak ≥ 5)),
   ("win_streak_10", decide (s.currentWinStreak ≥ 10)),
   ("snake_50", decide (s.snakeHighScore ≥ 50)), ("snake_100", decide (s.snakeHighScore ≥ 100)),
   ("snake_200", decide (s.snakeHighScore ≥ 200)),
   ("snake_500", decide (s.snakeHighScore ≥ 500)),
   ("ttt_first_win", decide (s.tttWins ≥ 1)), ("ttt_5_wins", decide (s.tttWins ≥ 5)),
   ("ttt_20_wins", decide (s.tttWins ≥ 20)), ("sl_first_win", decide (s.slWins ≥ 1)),
   ("uno_first_win", decide (s.unoWins ≥ 1)), ("uno_domination", decide (s.unoWins ≥ 10))]
  ++ (if extra.perfectTTT then [("ttt_perfect", true)] else [])
  ++ (if extra.playedPlus4 then [("uno_plus4", true)] else [])
  ++ (if extra.wonWithReverse then [("uno_reverse", true)] else [])
  ++ (if extra.noSnakesHit then [("sl_no_snakes", true)] else [])

/-- One iteration of the unlock-processing loop of `trackGamePlayed`: for
a satisfied condition whose achievement is found and still locked, unlock
it in the working list and append the unlocked copy to the batch of new
unlocks; otherwise leave the accumulator unchanged. -/
def processOneUnlock (now : Nat) (acc : List Achievement × List Achievement)
    (c : String × Bool) : List Achievement × List Achievement :=
  if c.2 then
    match acc.1.find? (fun a => a.id = c.1) with
    | some a =>
        if a.unlocked then acc
        else (acc.1.map (fun b => if b.id = c.1 then unlockAch b now else b),
              acc.2 ++ [unlockAch a now])
    | none => acc
  else acc

/-- The whole unlock-processing loop of `trackGamePlayed` over the
condition list, starting from the current achievement list and an empty
batch of new unlocks. -/
def processUnlocks (achievements : List Achievement) (checks : List (String × Bool))
    (now : Nat) : List Achievement × List Achievement :=
  checks.foldl (processOneUnlock now) (achievements, [])

/-- `trackGamePlayed`: update the stats, then evaluate the full condition
list against the new state and process the unlocks.  Returns the new
stats, the updated achievement list, and the batch of newly unlocked
achievements (the hook surfaces the last of the batch as the recent
unlock). -/
def trackGamePlayed (achievements : List Achievement) (stats : AchievementStats)
    (game : String) (won : Bool) (extra : ExtraData) (now : Nat) :
    AchievementStats × List Achievement × List Achievement :=
  let newStats := updateStats stats game won extra
  let processed := processUnlocks achievements (checkList newStats extra) now
  (newStats, processed.1, processed.2)

/-- How one achievement record may evolve across one engine call: it is
untouched, or it transitions from locked to unlocked with a fresh
timestamp.  An already-unlocked record can only be untouched. -/
def UnlockStep (now : Nat) (a u : Achievement) : Prop :=
  u = a ∨ (u = unlockAch a now ∧ a.unlocked = false)

theorem unlockStep_refl (now : Nat) (a : Achievement) : UnlockStep now a a := Or.inl rfl

theorem unlockStep_id (now : Nat) (a u : Achievement) (h : UnlockStep now a u) :
    u.id = a.id := by
  rcases h with h | ⟨h, _⟩ <;> subst h <;> rfl

theorem unlockStep_of_unlocked (now : Nat) (a u : Achievement) (h : UnlockStep now a u)
    (ha : a.unlocked = true) : u = a := by
  rcases h with h | ⟨_, hlocked⟩
  · exact h
  · rw [ha] at hlocked; cases hlocked

theorem unlockStep_trans (now : Nat) (a u v : Achievement)
    (h1 : UnlockStep now a u) (h2 : UnlockStep now u v) : UnlockStep now a v := by
  rcases h1 with h1 | ⟨h1, ha⟩
  · subst h1; exact h2
  · rcases h2 with h2 | ⟨h2, hu⟩
    · subst h2; exact Or.inr ⟨h1, ha⟩
    · subst h1; simp [unlockAch] at hu

theorem forall₂_unlockStep_refl (now : Nat) (l : List Achievement) :
    List.Forall₂ (UnlockStep now) l l :=
  List.forall₂_same.mpr (fun a _ => unlockStep_refl now a)

theorem forall₂_unlockStep_trans (now : Nat) :
    ∀ {l m n : List Achievement}, List.Forall₂ (UnlockStep now) l m →
      List.Forall₂ (UnlockStep now) m n → List.Forall₂ (UnlockStep now) l n := by
  intro l m n h1
  induction h1 generalizing n with
  | nil => intro h2; cases h2; exact List.Forall₂.nil
  | cons hau htail ih =>
      intro h2
      cases h2 with
      | cons huv htail2 =>
          exact List.Forall₂.cons (unlockStep_trans _ _ _ _ hau huv) (ih htail2)

theorem forall₂_unlockStep_map_ids (now : Nat) :
    ∀ {l m : List Achievement}, List.Forall₂ (UnlockStep now) l m →
      l.map (fun a => a.id) = m.map (fun a => a.id) := by
  intro l m h
  induction h with
  | nil => rfl
  | cons hau _ ih =>
      simp only [List.map_cons, ih, List.cons.injEq, and_true]
      exact (unlockStep_id now _ _ hau).symm

theorem forall₂_unlockStep_mem_right (now : Nat) :
    ∀ {l m : List Achievement}, List.Forall₂ (UnlockStep now) l m →
      ∀ u ∈ m, ∃ a ∈ l, UnlockStep now a u := by
  intro l m h
  induction h with
  | nil => intro u hu; cases hu
  | cons hau _ ih =>
      intro u hu
      rcases List.mem_cons.mp hu with h | h
      · subst h; exact ⟨_, List.mem_cons_self _ _, hau⟩
      · obtain ⟨a, ha, hstep⟩ := ih u h
        exact ⟨a, List.mem_cons_of_mem _ ha, hstep⟩

/-- The in-place unlock map of the source (`achievements.map (a => a.id
=== id ? {...a, unlocked, unlockedAt} : a)`) is an `UnlockStep` on each
element, provided every element carrying the unlocked id is still
locked. -/
theorem forall₂_unlockStep_map (now : Nat) (achievementId : String)
    (l : List Achievement) (h : ∀ b ∈ l, b.id = achievementId → b.unlocked = false) :
    List.Forall₂ (UnlockStep now) l
      (l.map (fun b => if b.id = achievementId then unlockAch b now else b)) := by
  induction l with
  | nil => exact List.Forall₂.nil
  | cons b bs ih =>
      simp only [List.map_cons]
      refine List.Forall₂.cons ?_ (ih (fun c hc hcid => h c (List.mem_cons_of_mem _ hc) hcid))
      by_cases hb : b.id = achievementId
      · simp only [hb, if_pos]
        exact Or.inr ⟨rfl, h b (List.mem_cons_self _ _) hb⟩
      · simp only [hb, if_neg, ite_false]
        exact unlockStep_refl now b

/-- In a list whose ids are pairwise distinct, if `find?` located a
still-locked achievement for an id then every element carrying that id is
still locked. -/
theorem locked_of_find?_locked (l : List Achievement) (achievementId : String)
    (a : Achievement) (hN : (l.map (fun x => x.id)).Nodup)
    (hfind : l.find? (fun x => x.id = achievementId) = some a)
    (ha : a.unlocked = false) :
    ∀ b ∈ l, b.id = achievementId → b.unlocked = false := by
  intro b hb hbid
  have hamem : a ∈ l := List.mem_of_find?_eq_some hfind
  have haid : a.id = achievementId := by
    have := List.find?_some hfind
    simpa using this
  have : b = a := by
    refine List.inj_on_of_nodup_map hN hb hamem ?_
    rw [hbid, haid]
  rw [this]; exact ha

theorem processUnlocks_inv (now : Nat) (l : List Achievement)
    (hN : (l.map (fun x => x.id)).Nodup) (checks : List (String × Bool)) :
    ∀ acc : List Achievement × List Achievement,
      List.Forall₂ (UnlockStep now) l acc.1 →
      (∀ u ∈ acc.2, ∃ a ∈ l, a.id = u.id ∧ a.unlocked = false) →
      List.Forall₂ (UnlockStep now) l (checks.foldl (processOneUnlock now) acc).1
      ∧ ∀ u ∈ (checks.foldl (processOneUnlock now) acc).2,
          ∃ a ∈ l, a.id = u.id ∧ a.unlocked = false := by
  induction checks with
  | nil => intro acc h1 h2; exact ⟨h1, h2⟩
  | cons c cs ih =>
      intro acc h1 h2
      rw [List.foldl_cons]
      refine ih (processOneUnlock now acc c) ?_ ?_
      all_goals
        unfold processOneUnlock
        by_cases hc : c.2 = true
      case pos =>
        simp only [hc, if_pos]
        cases hfind : acc.1.find? (fun a => a.id = c.1) with
        | none => exact h1
        | some a =>
            by_cases ha : a.unlocked = true
            · simp only [ha, if_pos]; exact h1
            · have haF : a.unlocked = false := Bool.eq_false_iff.mpr ha
              simp only [ha, ite_false]
              have hids := forall₂_unlockStep_map_ids now h1
              have hNacc : (acc.1.map (fun x => x.id)).Nodup := by rw [← hids]; exact hN
              exact forall₂_unlockStep_trans now h1
                (forall₂_unlockStep_map now c.1 acc.1
                  (locked_of_find?_locked acc.1 c.1 a hNacc hfind haF))
      case neg => simp only [hc, if_neg, ite_false]; exact h1
      case pos =>
        simp only [hc, if_pos]
        cases hfind : acc.1.find? (fun a => a.id = c.1) with
        | none => exact h2
        | some a =>
            by_cases ha : a.unlocked = true
            · simp only [ha, if_pos]; exact h2
            · have haF : a.unlocked = false := Bool.eq_false_iff.mpr ha
              simp only [ha, ite_false]
              intro u hu
              rcases List.mem_append.mp hu with hold | hnew
              · exact h2 u hold
              · have hu' : u = unlockAch a now := by simpa using hnew
                have hamem : a ∈ acc.1 := List.mem_of_find?_eq_some hfind
                obtain ⟨orig, horig, hstep⟩ :=
                  forall₂_unlockStep_mem_right now h1 a hamem
                rcases hstep with heq | ⟨heq, _⟩
                · refine ⟨orig, horig, ?_, by rw [← heq]; exact haF⟩
                  rw [hu', ← heq]; rfl
                · rw [heq] at haF; simp [unlockAch] at haF
      case neg => simp only [hc, if_neg, ite_false]; exact h2

/-- **C4.** Achievement unlocks are monotonic and idempotent (for any
achievement list with pairwise-distinct ids, as the catalogue has): every
`checkAndUnlock` and every `trackGamePlayed` call relates each achievement
record to its successor by `UnlockStep` — the record is untouched, or goes
from locked to unlocked — so an unlocked record (with its `unlockedAt`
stamp) is never touched again; `checkAndUnlock` on an already-unlocked id
returns `false` and leaves the list unchanged; and every entry of the
new-unlock batch of `trackGamePlayed` stems from a previously locked
record. -/
theorem achievements_unlock_monotone (now : Nat) (l : List Achievement)
    (hN : (l.map (fun x => x.id)).Nodup) :
    (∀ achievementId : String,
        List.Forall₂ (UnlockStep now) l (checkAndUnlock l achievementId now).2
        ∧ ∀ a : Achievement, l.find? (fun b => b.id = achievementId) = some a →
            a.unlocked = true → checkAndUnlock l achievementId now = (false, l))
    ∧ (∀ (stats : AchievementStats) (game : String) (won : Bool) (extra : ExtraData),
        List.Forall₂ (UnlockStep now) l (trackGamePlayed l stats game won extra now).2.1
        ∧ ∀ u ∈ (trackGamePlayed l stats game won extra now).2.2,
            ∃ a ∈ l, a.id = u.id ∧ a.unlocked = false)
    ∧ (∀ a u : Achievement, UnlockStep now a u → a.unlocked = true → u = a) := by
  refine ⟨fun achievementId => ⟨?_, ?_⟩, fun stats game won extra => ?_,
    unlockStep_of_unlocked now⟩
  · unfold checkAndUnlock
    cases hfind : l.find? (fun b => b.id = achievementId) with
    | none => exact forall₂_unlockStep_refl now l
    | some a =>
        by_cases ha : a.unlocked = true
        · simp only [ha, if_pos]; exact forall₂_unlockStep_refl now l
        · have haF : a.unlocked = false := Bool.eq_false_iff.mpr ha
          simp only [ha, ite_false]
          exact forall₂_unlockStep_map now achievementId l
            (locked_of_find?_locked l achievementId a hN hfind haF)
  · intro a hfind ha
    unfold checkAndUnlock
    rw [hfind]
    simp [ha]
  · simp only [trackGamePlayed, processUnlocks]
    exact processUnlocks_inv now l hN
      (checkList (updateStats stats game won extra) extra) (l, [])
      (forall₂_unlockStep_refl now l) (by intro u hu; cases hu)

/-- Build one static catalogue entry (initially locked, as the hook's
initial state maps the catalogue with `unlocked: false`). -/
def catalogueEntry (id title description icon category rarity : String)
    (xpReward : Nat) : Achievement :=
  ⟨id, title, description, icon, false, none, category, rarity, xpReward⟩

/-- The static achievement catalogue `ALL_ACHIEVEMENTS`, as loaded into
the hook's state before any unlock. -/
def allAchievements : List Achievement :=
  [catalogueEntry "first_game" "First Steps" "Play your first game" "🎮" "general" "common" 10,
   catalogueEntry "play_10" "Getting Started" "Play 10 games" "🏃" "general" "common" 25,
   catalogueEntry "play_50" "Dedicated Gamer" "Play 50 games" "🎯" "general" "rare" 100,
   catalogueEntry "play_100" "Arcade Legend" "Play 100 games" "🏆" "general" "epic" 250,
   catalogueEntry "first_win" "Taste of Victory" "Win your first game" "✨" "general" "common" 15,
   catalogueEntry "win_streak_3" "On Fire!" "Win 3 games in a row" "🔥" "general" "rare" 50,
   catalogueEntry "win_streak_5" "Unstoppable" "Win 5 games in a row" "⚡" "general" "epic" 100,
   catalogueEntry "win_streak_10" "God Mode" "Win 10 games in a row" "👑" "general" "legendary" 500,
   catalogueEntry "snake_50" "Slithering" "Score 50 in Snake" "🐍" "snake" "common" 20,
   catalogueEntry "snake_100" "Snake Charmer" "Score 100 in Snake" "🐍" "snake" "rare" 50,
   catalogueEntry "snake_200" "Python Master" "Score 200 in Snake" "🐍" "snake" "epic" 150,
   catalogueEntry "snake_500" "Anaconda King" "Score 500 in Snake" "🐍" "snake" "legendary" 500,
   catalogueEntry "snake_no_walls" "Edge Walker" "Play Snake for 2 minutes without hitting walls"
     "🧱" "snake" "epic" 100,
   catalogueEntry "ttt_first_win" "X Marks Victory" "Win your first Tic-Tac-Toe game" "❌"
     "tictactoe" "common" 15,
   catalogueEntry "ttt_5_wins" "Strategic Mind" "Win 5 Tic-Tac-Toe games" "🧠"
     "tictactoe" "rare" 50,
   catalogueEntry "ttt_perfect" "Flawless Victory" "Win Tic-Tac-Toe in 3 moves" "💯"
     "tictactoe" "epic" 100,
   catalogueEntry "ttt_20_wins" "Grandmaster" "Win 20 Tic-Tac-Toe games" "🎖️"
     "tictactoe" "legendary" 300,
   catalogueEntry "sl_first_win" "Lucky Roller" "Win your first Snake & Ladders game" "🎲"
     "snakeladders" "common" 20,
   catalogueEntry "sl_ladder_3" "Climber" "Hit 3 ladders in one game" "🪜"
     "snakeladders" "rare" 40,
   catalogueEntry "sl_no_snakes" "Snake Dodger" "Win without hitting any snakes" "🛡️"
     "snakeladders" "epic" 150,
   catalogueEntry "sl_comeback" "Comeback King" "Win after being 50+ spaces behind" "👑"
     "snakeladders" "legendary" 300,
   catalogueEntry "uno_first_win" "UNO!" "Win your first UNO game" "🃏" "uno" "common" 20,
   catalogueEntry "uno_plus4" "Friendship Ender" "Play a Draw 4 card" "💔" "uno" "common" 10,
   catalogueEntry "uno_reverse" "No U" "Win with a Reverse card" "🔄" "uno" "rare" 50,
   catalogueEntry "uno_domination" "Card Shark" "Win 10 UNO games" "🦈" "uno" "epic" 200,
   catalogueEntry "uno_speedrun" "Speed Demon" "Win UNO in under 2 minutes" "⚡"
     "uno" "legendary" 400]

set_option maxHeartbeats 1600000 in
/-- Witness for C4 on the real catalogue (its ids are pairwise distinct),
with the `first_win` achievement already unlocked at time 5: every
conclusion of the monotonicity theorem holds at this state. -/
theorem achievements_unlock_monotone_witness :
    (((allAchievements.map (fun a => if a.id = "first_win" then unlockAch a 5 else a)).map
        (fun x => x.id)).Nodup)
    ∧ ((∀ achievementId : String,
        List.Forall₂ (UnlockStep 9)
          (allAchievements.map (fun a => if a.id = "first_win" then unlockAch a 5 else a))
          (checkAndUnlock
            (allAchievements.map (fun a => if a.id = "first_win" then unlockAch a 5 else a))
            achievementId 9).2
        ∧ ∀ a : Achievement,
            (allAchievements.map
              (fun a => if a.id = "first_win" then unlockAch a 5 else a)).find?
                (fun b => b.id = achievementId) = some a →
            a.unlocked = true →
            checkAndUnlock
              (allAchievements.map (fun a => if a.id = "first_win" then unlockAch a 5 else a))
              achievementId 9
              = (false,
                  allAchievements.map (fun a => if a.id = "first_win" then unlockAch a 5 else a)))
      ∧ (∀ (stats : AchievementStats) (game : String) (won : Bool) (extra : ExtraData),
          List.Forall₂ (UnlockStep 9)
            (allAchievements.map (fun a => if a.id = "first_win" then unlockAch a 5 else a))
            (trackGamePlayed
              (allAchievements.map (fun a => if a.id = "first_win" then unlockAch a 5 else a))
              stats game won extra 9).2.1
          ∧ ∀ u ∈ (trackGamePlayed
              (allAchievements.map (fun a => if a.id = "first_win" then unlockAch a 5 else a))
              stats game won extra 9).2.2,
              ∃ a ∈ allAchievements.map (fun a => if a.id = "first_win" then unlockAch a 5 else a),
                a.id = u.id ∧ a.unlocked = false)
      ∧ (∀ a u : Achievement, UnlockStep 9 a u → a.unlocked = true → u = a)) :=
  ⟨by decide,
    achievements_unlock_monotone 9
      (allAchievements.map (fun a => if a.id = "first_win" then unlockAch a 5 else a))
      (by decide)⟩

/-!
Demo-mode `getLeaderboard`.  The set of known players is the union of the
keys of the four stats tables in insertion order (JS `Set` keeps first
occurrences); one entry is computed per player by the game-type switch;
entries are sorted descending by score with JS `Array.prototype.sort`
(stable since ES2019) under the comparator `(a, b) => b.score - a.score`;
ranks are then assigned by position.  An empty entry list, or a storage
read/parse failure, yields the synthetic demo leaderboard instead.
-/

/-- Reduce an integer to the signed 32-bit range, as JS `| 0` / `&` do
(`ToInt32`). -/
def toInt32 (n : Int) : Int :=
  let m := n % 4294967296
  if m < 2147483648 then m else m - 4294967296

/-- One step of the string hash: `hash = ((hash << 5) - hash) + char;
hash = hash & hash` (the shift wraps at 32 bits, the `&` coerces the
exact intermediate sum back to int32). -/
def hashStep (h : Int) (c : Nat) : Int :=
  toInt32 (toInt32 (h * 32) - h + c)

/-- `hashCode`: fold the 32-bit hash over the string's code units and take
the absolute value.  (Code units are modelled by the characters' code
points; the addresses and names hashed here are ASCII, where the two
coincide.) -/
def hashCode (s : String) : Nat :=
  (s.data.foldl (fun h ch => hashStep h ch.toNat) 0).natAbs

/-- The `AVATARS` emoji table of the hook. -/
def AVATARS : List String :=
  ["👑", "🎮", "⚡", "🔥", "🥷", "🏆", "💎", "🎨", "🌐", "🚀", "🎯", "💀"]

/-- A leaderboard row as returned to the UI. -/
structure LeaderboardEntry where
  rank : Nat
  playerName : String
  playerAddress : Addr
  score : Nat
  gamesPlayed : Nat
  winRate : Nat
  avatar : String
deriving Repr, DecidableEq

/-- Exact half-up rounding of `num / den` (for `den > 0`): the value of JS
`Math.round` on this non-negative ratio. -/
def roundHalfUp (num den : Nat) : Nat :=
  (2 * num + den) / (2 * den)

/-- The game-type switch of `getLeaderboard`: the `(score, wins, losses)`
triple derived from the player's stored stats for the requested game type
(the `default` case aggregates across all types). -/
def entryStats (st : DemoStore) (gameType : String) (address : Addr) :
    Nat × Nat × Nat :=
  let snakeScore := (lookupTable st.snakeScores address).getD 0
  let tttStats := (lookupTable st.tttStats address).getD ⟨0, 0⟩
  let slStats := (lookupTable st.slStats address).getD ⟨0, 0, 4⟩
  let unoStats := (lookupTable st.unoStats address).getD ⟨0, 0⟩
  if gameType = "snake" then (snakeScore, snakeScore / 50, 0)
  else if gameType = "tictactoe" then (tttStats.wins * 100, tttStats.wins, tttStats.losses)
  else if gameType = "snakeladders" then
    (slStats.wins * 150, slStats.wins, slStats.losses)
  else if gameType = "uno" then (unoStats.wins * 100, unoStats.wins, unoStats.losses)
  else (snakeScore + (tttStats.wins + slStats.wins + unoStats.wins) * 100,
        tttStats.wins + slStats.wins + unoStats.wins,
        tttStats.losses + slStats.losses + unoStats.losses)

/-- One leaderboard entry for a known player (rank still 0; ranks are
assigned after sorting).  `gamesPlayed` is
`wins + losses || storedGames[address] || 1` and `winRate` is
`gamesPlayed > 0 ? Math.round((wins / gamesPlayed) * 100) : 0`. -/
def mkEntry (st : DemoStore) (gameType : String) (address : Addr) : LeaderboardEntry :=
  let profile := lookupTable st.profiles address
  let swl := entryStats st gameType address
  let wins := swl.2.1
  let losses := swl.2.2
  let storedGames := (lookupTable st.gamesPlayed address).getD 0
  let gamesPlayed :=
    if wins + losses ≠ 0 then wins + losses
    else if storedGames ≠ 0 then storedGames
    else 1
  { rank := 0
    playerName :=
      match profile with
      | some p => if p.username = "" then "Player" ++ toString (hashCode address % 1000)
                  else p.username
      | none => "Player" ++ toString (hashCode address % 1000)
    playerAddress := address
    score := swl.1
    gamesPlayed := gamesPlayed
    winRate := if gamesPlayed > 0 then roundHalfUp (wins * 100) gamesPlayed else 0
    avatar := (AVATARS.get? (hashCode address % AVATARS.length)).getD "" }

/-- The ordered set of known players: the keys of the four stats tables,
first occurrences kept (JS `Set` insertion order). -/
def allPlayers (st : DemoStore) : List Addr :=
  ((st.snakeScores.map (fun kv => kv.1)) ++ (st.tttStats.map (fun kv => kv.1))
    ++ (st.slStats.map (fun kv => kv.1)) ++ (st.unoStats.map (fun kv => kv.1))).foldl
    (fun acc a => if a ∈ acc then acc else acc ++ [a]) []

/-- Stable insertion of an entry into a list sorted descending by score:
the entry goes after every earlier entry with a strictly greater or equal
score position-wise — past entries with strictly greater score, before the
first with a smaller-or-equal one.  Models one step of JS stable
`sort((a, b) => b.score - a.score)`. -/
def insertScoreDesc (x : LeaderboardEntry) : List LeaderboardEntry → List LeaderboardEntry
  | [] => [x]
  | y :: ys => if y.score > x.score then y :: insertScoreDesc x ys else x :: y :: ys

/-- Stable sort descending by score (JS `Array.prototype.sort` with the
comparator `(a, b) => b.score - a.score`; the ECMAScript sort is stable,
and any stable sort yields the same list). -/
def sortByScoreDesc : List LeaderboardEntry → List LeaderboardEntry
  | [] => []
  | x :: xs => insertScoreDesc x (sortByScoreDesc xs)

/-- `entries.forEach((entry, index) => entry.rank = index + 1)` from
position `n`. -/
def assignRanksFrom (n : Nat) : List LeaderboardEntry → List LeaderboardEntry
  | [] => []
  | e :: es => { e with rank := n + 1 } :: assignRanksFrom (n + 1) es

/-- Sort the computed entries descending by score and assign 1-based
ranks. -/
def rankEntries (l : List LeaderboardEntry) : List LeaderboardEntry :=
  assignRanksFrom 0 (sortByScoreDesc l)

/-- One row of the synthetic demo leaderboard table. -/
structure DemoPlayer where
  name : String
  score : Nat
  games : Nat
  winRate : Nat
  avatar : String
deriving Repr, DecidableEq

/-- The ten hard-coded demo players of `generateDemoLeaderboard`. -/
def demoPlayers : List DemoPlayer :=
  [⟨"CryptoKing", 12847, 234, 78, "👑"⟩, ⟨"Web3Pro", 11293, 198, 72, "🎮"⟩,
   ⟨"BlockMaster", 10892, 312, 65, "⚡"⟩, ⟨"ChainGamer", 9847, 156, 69, "🔥"⟩,
   ⟨"PixelNinja", 8921, 287, 61, "🥷"⟩, ⟨"TokenChamp", 8456, 201, 58, "🏆"⟩,
   ⟨"DeFiGamer", 7892, 178, 55, "💎"⟩, ⟨"NFTPlayer", 7234, 245, 52, "🎨"⟩,
   ⟨"MetaGamer", 6891, 134, 60, "🌐"⟩, ⟨"ZeroLag", 6543, 167, 54, "⚡"⟩]

/-- Build the demo rows from position `i`: rank `i + 1`, synthetic hex
address from the name hash. -/
def buildDemoEntries (i : Nat) : List DemoPlayer → List LeaderboardEntry
  | [] => []
  | p :: ps =>
      { rank := i + 1
        playerName := p.name
        playerAddress := "0x" ++ String.mk ((Nat.toDigits 16 (hashCode p.name)).take 8) ++ "..."
        score := p.score
        gamesPlayed := p.games
        winRate := p.winRate
        avatar := p.avatar } :: buildDemoEntries (i + 1) ps

set_option linter.unusedVariables false in
/-- `generateDemoLeaderboard`: the first `limit` demo players, ranked by
position (the game type does not influence the synthetic rows). -/
def generateDemoLeaderboard (gameType : String) (limit : Nat) : List LeaderboardEntry :=
  buildDemoEntries 0 (demoPlayers.take limit)

/-- Demo-mode `getLeaderboard` over an already-parsed store: compute,
sort and rank entries for all known players; when there are none return
the synthetic demo leaderboard, else the first `limit` ranked rows. -/
def getLeaderboard (st : DemoStore) (gameType : String) (limit : Nat) :
    List LeaderboardEntry :=
  let entries := rankEntries ((allPlayers st).map (mkEntry st gameType))
  if entries.length = 0 then generateDemoLeaderboard gameType limit
  else entries.take limit

/-- Demo-mode `getLeaderboard` including the surrounding `try`/`catch`: a
storage read/parse failure (the `catch` arm) also returns the synthetic
demo leaderboard. -/
def getLeaderboardSafe (storage : Except Unit DemoStore) (gameType : String)
    (limit : Nat) : List LeaderboardEntry :=
  match storage with
  | Except.error _ => generateDemoLeaderboard gameType limit
  | Except.ok st => getLeaderboard st gameType limit

theorem chain'_insertScoreDesc (x : LeaderboardEntry) (l : List LeaderboardEntry)
    (h : List.Chain' (fun a b => b.score ≤ a.score) l) :
    List.Chain' (fun a b => b.score ≤ a.score) (insertScoreDesc x l) := by
  induction l with
  | nil => simp [insertScoreDesc]
  | cons y ys ih =>
      unfold insertScoreDesc
      by_cases hxy : y.score > x.score
      · simp only [hxy, if_pos]
        refine List.chain'_cons'.mpr ⟨?_, ih (List.Chain'.tail h)⟩
        intro z hz
        cases ys with
        | nil => simp [insertScoreDesc] at hz; rw [← hz]; exact Nat.le_of_lt hxy
        | cons w ws =>
            unfold insertScoreDesc at hz
            by_cases hw : w.score > x.score
            · simp only [hw, if_pos, List.head?_cons, Option.mem_def,
                Option.some.injEq] at hz
              rw [← hz]
              exact (List.chain'_cons.mp h).1
            · simp only [hw, ite_false, List.head?_cons, Option.mem_def,
                Option.some.injEq] at hz
              rw [← hz]
              exact Nat.le_of_lt hxy
      · simp only [hxy, ite_false]
        exact List.chain'_cons.mpr ⟨Nat.le_of_not_lt hxy, h⟩

theorem chain'_sortByScoreDesc (l : List LeaderboardEntry) :
    List.Chain' (fun a b => b.score ≤ a.score) (sortByScoreDesc l) := by
  induction l with
  | nil => simp [sortByScoreDesc]
  | cons x xs ih => exact chain'_insertScoreDesc x (sortByScoreDesc xs) ih

theorem filter_insertScoreDesc (x : LeaderboardEntry) (l : List LeaderboardEntry) (s : Nat) :
    (insertScoreDesc x l).filter (fun e => e.score = s)
      = if x.score = s then x :: l.filter (fun e => e.score = s)
        else l.filter (fun e => e.score = s) := by
  induction l with
  | nil => by_cases hx : x.score = s <;> simp [insertScoreDesc, hx]
  | cons y ys ih =>
      unfold insertScoreDesc
      by_cases hxy : y.score > x.score
      · simp only [hxy, if_pos]
        by_cases hx : x.score = s
        · have hy : ¬(y.score = s) := by omega
          simp [hx, hy, ih, List.filter_cons]
        · by_cases hy : y.score = s <;> simp [hx, hy, ih, List.filter_cons]
      · simp only [hxy, ite_false]
        by_cases hx : x.score = s <;> by_cases hy : y.score = s <;>
          simp [hx, hy, List.filter_cons]

theorem filter_sortByScoreDesc (l : List LeaderboardEntry) (s : Nat) :
    (sortByScoreDesc l).filter (fun e => e.score = s)
      = l.filter (fun e => e.score = s) := by
  induction l with
  | nil => rfl
  | cons x xs ih =>
      unfold sortByScoreDesc
      rw [filter_insertScoreDesc]
      by_cases hx : x.score = s <;> simp [hx, ih, List.filter_cons]

theorem chain'_assignRanksFrom (l : List LeaderboardEntry) :
    ∀ n : Nat, List.Chain' (fun a b => b.score ≤ a.score) l →
      List.Chain' (fun a b => b.score ≤ a.score) (assignRanksFrom n l) := by
  induction l with
  | nil => intro n _; simp [assignRanksFrom]
  | cons e es ih =>
      intro n h
      unfold assignRanksFrom
      refine List.chain'_cons'.mpr ⟨?_, ih (n + 1) (List.Chain'.tail h)⟩
      intro z hz
      cases es with
      | nil => simp [assignRanksFrom] at hz
      | cons f fs =>
          simp only [assignRanksFrom, List.head?_cons, Option.mem_def,
            Option.some.injEq] at hz
          rw [← hz]
          exact (List.chain'_cons.mp h).1

theorem assignRanksFrom_length (l : List LeaderboardEntry) :
    ∀ n : Nat, (assignRanksFrom n l).length = l.length := by
  induction l with
  | nil => intro n; rfl
  | cons e es ih => intro n; simp [assignRanksFrom, ih]

theorem assignRanksFrom_get_rank (l : List LeaderboardEntry) :
    ∀ (n i : Nat) (h : i < (assignRanksFrom n l).length),
      ((assignRanksFrom n l).get ⟨i, h⟩).rank = n + i + 1 := by
  induction l with
  | nil => intro n i h; simp [assignRanksFrom] at h
  | cons e es ih =>
      intro n i h
      cases i with
      | zero => rfl
      | succ j =>
          have hj : j < (assignRanksFrom (n + 1) es).length := by
            simpa [assignRanksFrom] using h
          have := ih (n + 1) j hj
          simpa [assignRanksFrom, Nat.add_assoc, Nat.add_comm, Nat.add_left_comm] using this

/-- Store for the leaderboard-determinism example: snake scores
`B = 250, C = 250, A = 100`, inserted (hence iterated) in the order
B, C, A. -/
def tieExampleStore : DemoStore :=
  { emptyStore with snakeScores := [("B", 250), ("C", 250), ("A", 100)] }

/-- **C6.** The demo-mode leaderboard ranking: the ranked list is sorted
descending by score; the sort is stable (for every score value, the
entries carrying it appear in their original iteration order — the
filtered sublists agree); ranks are the 1-based positions after sorting;
and on the tie example `{B: 250, C: 250, A: 100}` iterated B before C,
`getLeaderboard` returns B with rank 1, C with rank 2, A with rank 3. -/
theorem getLeaderboard_sorted_stable_ranked :
    (∀ l : List LeaderboardEntry,
      List.Chain' (fun a b => b.score ≤ a.score) (rankEntries l)
      ∧ (∀ s : Nat, (sortByScoreDesc l).filter (fun e => e.score = s)
            = l.filter (fun e => e.score = s))
      ∧ ∀ (i : Nat) (h : i < (rankEntries l).length),
          ((rankEntries l).get ⟨i, h⟩).rank = i + 1)
    ∧ (getLeaderboardSafe (Except.ok tieExampleStore) "snake" 10).map
        (fun e => (e.playerAddress, e.rank, e.score))
          = [("B", 1, 250), ("C", 2, 250), ("A", 3, 100)] := by
  refine ⟨fun l => ⟨?_, fun s => filter_sortByScoreDesc l s, fun i h => ?_⟩, by decide⟩
  · exact chain'_assignRanksFrom (sortByScoreDesc l) 0 (chain'_sortByScoreDesc l)
  · have := assignRanksFrom_get_rank (sortByScoreDesc l) 0 i (by simpa [rankEntries] using h)
    simpa [rankEntries] using this

/-- Store for the aggregate-score counterexample: one snake-and-ladders
win for `alice`, nothing else. -/
def aggregateExampleStore : DemoStore :=
  { emptyStore with slStats := [("alice", ⟨1, 0, 4⟩)] }

/-- **C5 (counterexample).** The claim predicts the aggregate entry's
score to be `snake + ttt*100 + sl*150 + uno*100` — here
`0 + 0 + 1*150 + 0 = 150` — but the code computes
`snake + (ttt + sl + uno) * 100 = 100`: in the aggregate, a
snake-and-ladders win counts 100 points, not its individual-board 150. -/
theorem getLeaderboard_aggregate_counterexample :
    (getLeaderboardSafe (Except.ok aggregateExampleStore) "all" 10).map
        (fun e => (e.playerAddress, e.score)) = [("alice", 100)]
    ∧ (lookupTable aggregateExampleStore.snakeScores "alice").getD 0
        + ((lookupTable aggregateExampleStore.tttStats "alice").getD ⟨0, 0⟩).wins * 100
        + ((lookupTable aggregateExampleStore.slStats "alice").getD ⟨0, 0, 4⟩).wins * 150
        + ((lookupTable aggregateExampleStore.unoStats "alice").getD ⟨0, 0⟩).wins * 100
        = 150
    ∧ (100 : Nat) ≠ 150 := by
  refine ⟨by decide, by decide, by decide⟩

/-- **C5 (amended).** For every store and player, the aggregate (default
game type) leaderboard entry has
`score = snakeScore + (tttWins + slWins + unoWins) * 100` (every win of a
win/loss game counts 100 points in the aggregate, including
snake-and-ladders), and its wins and losses are the sums of the wins and
losses of the three win/loss game types (tic-tac-toe, snake-and-ladders,
UNO). -/
theorem getLeaderboard_aggregate_score (st : DemoStore) (g : String) (a : Addr)
    (h1 : g ≠ "snake") (h2 : g ≠ "tictactoe") (h3 : g ≠ "snakeladders") (h4 : g ≠ "uno") :
    (mkEntry st g a).score
        = (lookupTable st.snakeScores a).getD 0
            + (((lookupTable st.tttStats a).getD ⟨0, 0⟩).wins
                + ((lookupTable st.slStats a).getD ⟨0, 0, 4⟩).wins
                + ((lookupTable st.unoStats a).getD ⟨0, 0⟩).wins) * 100
    ∧ (entryStats st g a).2.1
        = ((lookupTable st.tttStats a).getD ⟨0, 0⟩).wins
            + ((lookupTable st.slStats a).getD ⟨0, 0, 4⟩).wins
            + ((lookupTable st.unoStats a).getD ⟨0, 0⟩).wins
    ∧ (entryStats st g a).2.2
        = ((lookupTable st.tttStats a).getD ⟨0, 0⟩).losses
            + ((lookupTable st.slStats a).getD ⟨0, 0, 4⟩).losses
            + ((lookupTable st.unoStats a).getD ⟨0, 0⟩).losses := by
  refine ⟨?_, ?_, ?_⟩ <;> simp [mkEntry, entryStats, h1, h2, h3, h4]

/-- Witness for the amended C5 at the counterexample store and the
aggregate game type `"all"`. -/
theorem getLeaderboard_aggregate_score_witness :
    ("all" ≠ "snake" ∧ "all" ≠ "tictactoe" ∧ "all" ≠ "snakeladders" ∧ "all" ≠ "uno")
    ∧ ((mkEntry aggregateExampleStore "all" "alice").score
          = (lookupTable aggregateExampleStore.snakeScores "alice").getD 0
              + (((lookupTable aggregateExampleStore.tttStats "alice").getD ⟨0, 0⟩).wins
                  + ((lookupTable aggregateExampleStore.slStats "alice").getD ⟨0, 0, 4⟩).wins
                  + ((lookupTable aggregateExampleStore.unoStats "alice").getD ⟨0, 0⟩).wins)
                  * 100
        ∧ (entryStats aggregateExampleStore "all" "alice").2.1
            = ((lookupTable aggregateExampleStore.tttStats "alice").getD ⟨0, 0⟩).wins
                + ((lookupTable aggregateExampleStore.slStats "alice").getD ⟨0, 0, 4⟩).wins
                + ((lookupTable aggregateExampleStore.unoStats "alice").getD ⟨0, 0⟩).wins
        ∧ (entryStats aggregateExampleStore "all" "alice").2.2
            = ((lookupTable aggregateExampleStore.tttStats "alice").getD ⟨0, 0⟩).losses
                + ((lookupTable aggregateExampleStore.slStats "alice").getD ⟨0, 0, 4⟩).losses
                + ((lookupTable aggregateExampleStore.unoStats "alice").getD ⟨0, 0⟩).losses) :=
  ⟨⟨by decide, by decide, by decide, by decide⟩,
    getLeaderboard_aggregate_score aggregateExampleStore "all" "alice"
      (by decide) (by decide) (by decide) (by decide)⟩

/-- **C7.** Demo-mode leaderboard queries degrade instead of failing: for
any requested limit of at least 1 (the hook's default is 10), a storage
read/parse failure returns the synthetic demo leaderboard, an empty set of
known players also returns it, and that placeholder list is non-empty. -/
theorem getLeaderboard_placeholder (g : String) (limit : Nat)
    (storage : Except Unit DemoStore) (hlim : 1 ≤ limit) :
    (∀ e : Unit, storage = Except.error e →
        getLeaderboardSafe storage g limit = generateDemoLeaderboard g limit)
    ∧ (∀ st : DemoStore, storage = Except.ok st → allPlayers st = [] →
        getLeaderboardSafe storage g limit = generateDemoLeaderboard g limit)
    ∧ generateDemoLeaderboard g limit ≠ [] := by
  refine ⟨?_, ?_, ?_⟩
  · intro e he; rw [he]; rfl
  · intro st hst hempty
    rw [hst]
    simp [getLeaderboardSafe, getLeaderboard, hempty, rankEntries, sortByScoreDesc,
      assignRanksFrom]
  · cases limit with
    | zero => cases hlim
    | succ n =>
        simp [generateDemoLeaderboard, demoPlayers, List.take_cons, buildDemoEntries]

/-- Witness for C7 at a failed read (`Except.error`), game type
`"snake"`, and the default limit 10. -/
theorem getLeaderboard_placeholder_witness :
    (1 ≤ 10)
    ∧ ((∀ e : Unit, (Except.error () : Except Unit DemoStore) = Except.error e →
          getLeaderboardSafe (Except.error ()) "snake" 10
            = generateDemoLeaderboard "snake" 10)
      ∧ (∀ st : DemoStore, (Except.error () : Except Unit DemoStore) = Except.ok st →
          allPlayers st = [] →
          getLeaderboardSafe (Except.error ()) "snake" 10
            = generateDemoLeaderboard "snake" 10)
      ∧ generateDemoLeaderboard "snake" 10 ≠ []) :=
  ⟨by decide, getLeaderboard_placeholder "snake" 10 (Except.error ()) (by decide)⟩

/-- Store for the games-played fallback counterexample: `carol` is a known
player (one tic-tac-toe win) but has no UNO stats and no stored
games-played counter. -/
def fallbackExampleStore : DemoStore :=
  { emptyStore with tttStats := [("carol", ⟨1, 0⟩)] }

/-- **C8 (counterexample).** The claim says `gamesPlayed` falls back to
the stored games-played counter whenever `wins + losses` is zero; for
`carol` on the UNO leaderboard both `wins + losses` and the stored counter
are 0, yet the entry's `gamesPlayed` is 1 (the code's final `|| 1`
fallback), not the stored counter's 0. -/
theorem getLeaderboard_gamesPlayed_counterexample :
    (entryStats fallbackExampleStore "uno" "carol").2.1 = 0
    ∧ (entryStats fallbackExampleStore "uno" "carol").2.2 = 0
    ∧ (lookupTable fallbackExampleStore.gamesPlayed "carol").getD 0 = 0
    ∧ (getLeaderboardSafe (Except.ok fallbackExampleStore) "uno" 10).map
        (fun e => (e.playerAddress, e.gamesPlayed, e.winRate)) = [("carol", 1, 0)]
    ∧ (1 : Nat) ≠ 0 := by
  refine ⟨by decide, by decide, by decide, by decide, by decide⟩

/-- Store for the win-rate rounding example: 1 win and 2 losses. -/
def winRateExampleStore : DemoStore :=
  { emptyStore with tttStats := [("dave", ⟨1, 2⟩)] }

/-- **C8 (amended).** For every store, game type and player:
`gamesPlayed = wins + losses`, falling back to the stored games-played
counter when `wins + losses` is zero, and to 1 when that counter is also
zero or absent; `gamesPlayed` is therefore always positive, and
`winRate = round(100 * wins / gamesPlayed)` (exact half-up rounding); in
particular 1 win and 2 losses gives `winRate = round(100/3) = 33`. -/
theorem getLeaderboard_winRate (st : DemoStore) (g : String) (a : Addr) :
    ((mkEntry st g a).gamesPlayed
        = (if (entryStats st g a).2.1 + (entryStats st g a).2.2 ≠ 0 then
             (entryStats st g a).2.1 + (entryStats st g a).2.2
           else if (lookupTable st.gamesPlayed a).getD 0 ≠ 0 then
             (lookupTable st.gamesPlayed a).getD 0
           else 1)
      ∧ 0 < (mkEntry st g a).gamesPlayed
      ∧ (mkEntry st g a).winRate
          = roundHalfUp ((entryStats st g a).2.1 * 100) ((mkEntry st g a).gamesPlayed))
    ∧ (mkEntry winRateExampleStore "tictactoe" "dave").gamesPlayed = 3
    ∧ (mkEntry winRateExampleStore "tictactoe" "dave").winRate = 33 := by
  have hgp : (mkEntry st g a).gamesPlayed
      = (if (entryStats st g a).2.1 + (entryStats st g a).2.2 ≠ 0 then
           (entryStats st g a).2.1 + (entryStats st g a).2.2
         else if (lookupTable st.gamesPlayed a).getD 0 ≠ 0 then
           (lookupTable st.gamesPlayed a).getD 0
         else 1) := rfl
  have hpos : 0 < (mkEntry st g a).gamesPlayed := by
    rw [hgp]
    split
    · omega
    · split <;> omega
  refine ⟨⟨hgp, hpos, ?_⟩, by decide, by decide⟩
  have : (mkEntry st g a).winRate
      = if (mkEntry st g a).gamesPlayed > 0 then
          roundHalfUp ((entryStats st g a).2.1 * 100) ((mkEntry st g a).gamesPlayed)
        else 0 := rfl
  rw [this, if_pos hpos]

end NeonArcade
